import Mathlib

/-!
Verification of the TIM codec implemented in `timview-v2.py` (the current
implementation; `v1/timview.py` duplicates the same codec).  The Python
functions `read_tim` and `image_to_tim` are shallowly embedded below:
bytes are `Nat` values (each < 256 in well-formed data), machine integers
are `Nat` with explicit `% 2^w` where Python's `struct` packing wraps or
the arithmetic is masked, Python exceptions become an explicit error type,
and the file handle is a `List Nat` consumed positionally exactly as the
sequence of `f.read` calls consumes it.
-/

namespace Timview

/-- Python `struct.unpack("<H", ...)`: little-endian 16-bit value of two bytes. -/
def u16le (b0 b1 : Nat) : Nat := b0 + 256 * b1

/-- Python `struct.unpack("<I", f.read(4))`: little-endian 32-bit value of the
next four bytes of the stream; `struct.error` (modelled as `none`) when fewer
than four bytes remain. -/
def u32le? : List Nat → Option Nat
  | b0 :: b1 :: b2 :: b3 :: _ =>
      some (b0 + 256 * b1 + 65536 * b2 + 16777216 * b3)
  | _ => none

/-- Python `struct.unpack("<4H", f.read(8))`: four little-endian 16-bit values;
`none` when fewer than eight bytes remain. -/
def u16x4? : List Nat → Option (Nat × Nat × Nat × Nat)
  | b0 :: b1 :: b2 :: b3 :: b4 :: b5 :: b6 :: b7 :: _ =>
      some (u16le b0 b1, u16le b2 b3, u16le b4 b5, u16le b6 b7)
  | _ => none

/-- Little-endian bytes of a 16-bit field as written by `struct.pack("<H", v)`. -/
def u16leBytes (v : Nat) : List Nat := [v % 256, v / 256 % 256]

/-- Little-endian bytes of a 32-bit field as written by `struct.pack("<I", v)`. -/
def u32leBytes (v : Nat) : List Nat :=
  [v % 256, v / 256 % 256, v / 65536 % 256, v / 16777216 % 256]

/-- `np.frombuffer(data, dtype=np.uint16)`: reinterpret a byte list as
little-endian 16-bit values (the caller checks the even-length requirement). -/
def readU16s : List Nat → List Nat
  | b0 :: b1 :: rest => u16le b0 b1 :: readU16s rest
  | _ => []

/-- The exceptions `read_tim` can raise. -/
inductive TimError where
  /-- `ValueError("Not a TIM file (bad magic)")`, line 53. -/
  | badMagic
  /-- `ValueError("Unsupported BPP mode")`, line 60. -/
  | unsupportedBpp
  /-- `struct.error`: a `struct.unpack` call received too few bytes. -/
  | structError
  /-- `ValueError` from `np.frombuffer` on a buffer of odd byte length. -/
  | frombufferError
  /-- `IndexError` from indexing a numpy array out of range. -/
  | indexError
  /-- `ValueError` from a `reshape` / `frombytes` whose size does not match. -/
  | valueError
  deriving DecidableEq, Repr

/-- The decoded result: dimensions plus the row-major RGB888 pixel grid that
the returned `PIL.Image` holds. -/
structure DecodedImage where
  width : Nat
  height : Nat
  pixels : List (Nat × Nat × Nat)
  deriving DecidableEq, Repr

/-- `read_tim` state after the header and the optional CLUT block have been
consumed: detected bit depth, the reshaped CLUT rows (`none` when the file has
no CLUT), and the not-yet-consumed remainder of the file. -/
structure ParsedFile where
  bpp : Nat
  rows? : Option (List (List Nat))
  rest : List Nat
  deriving DecidableEq, Repr

/-- Fuel-driven splitting of a flat list into consecutive chunks of `w`
elements; the fuel is the list length, which suffices whenever `w > 0`. -/
def chunksAux (w : Nat) : Nat → List Nat → List (List Nat)
  | 0, _ => []
  | _, [] => []
  | fuel + 1, l => l.take w :: chunksAux w fuel (l.drop w)

/-- `clut_colors.reshape((-1, clut_w))`: rows of `w` consecutive elements. -/
def chunks (w : Nat) (l : List Nat) : List (List Nat) := chunksAux w l.length l

/-- Lines 69-72: try `reshape((-1, clut_w))`, which numpy accepts exactly when
`clut_w > 0` divides the flat length; on the raised `ValueError` fall back to
`reshape((1, -1))`, a single row holding every color in order. -/
def clutReshape (colors : List Nat) (clutW : Nat) : List (List Nat) :=
  if 0 < clutW ∧ colors.length % clutW = 0 then chunks clutW colors
  else [colors]

/-- Numpy indexing of the first axis, `clut[palette_index]`: indices in
`[-len, len)` are valid, negative ones counting from the end; anything else
raises `IndexError`. -/
def pyRow (rows : List (List Nat)) (i : Int) : Except TimError (List Nat) :=
  if 0 ≤ i ∧ i < (rows.length : Int) then .ok (rows.getD i.toNat [])
  else if -(rows.length : Int) ≤ i ∧ i < 0 then
    .ok (rows.getD ((rows.length : Int) + i).toNat [])
  else .error .indexError

/-- Lines 73-75: `if palette_index >= len(clut): palette_index = 0` followed by
`clut[palette_index]`. -/
def selectPalette (rows : List (List Nat)) (p : Int) : Except TimError (List Nat) :=
  pyRow rows (if (rows.length : Int) ≤ p then 0 else p)

/-- One iteration of the 4bpp unpack loop, lines 96-101: pixel `i` reads byte
`i // 2`, taking the low nibble when `i` is even and the high nibble when `i`
is odd; a too-short payload raises `IndexError`. -/
def nibbleAt (pxBytes : List Nat) (i : Nat) : Except TimError Nat :=
  match pxBytes[i / 2]? with
  | none => .error .indexError
  | some b => .ok (if i % 2 = 0 then b &&& 0x0F else (b >>> 4) &&& 0x0F)

/-- Run an effectful step over a list, stopping at the first raised error,
like a Python `for` loop filling an output buffer. -/
def mapExcept (f : Nat → Except TimError Nat) : List Nat → Except TimError (List Nat)
  | [] => .ok []
  | a :: l =>
    match f a with
    | .error e => .error e
    | .ok b =>
      match mapExcept f l with
      | .error e => .error e
      | .ok bs => .ok (b :: bs)

/-- Lines 95-101: unpack `numPixels` 4-bit palette indices from the payload. -/
def unpack4 (pxBytes : List Nat) (numPixels : Nat) : Except TimError (List Nat) :=
  mapExcept (nibbleAt pxBytes) (List.range numPixels)

/-- Numpy fancy indexing `palette[i]` for one index: out of range raises. -/
def lookup1 (pal : List Nat) (i : Nat) : Except TimError Nat :=
  match pal[i]? with
  | none => .error .indexError
  | some c => .ok c

/-- Numpy fancy indexing `selected_palette[pixels]`. -/
def lookupAll (pal : List Nat) (idxs : List Nat) : Except TimError (List Nat) :=
  mapExcept (lookup1 pal) idxs

/-- Lines 104 and 112: entry `i` of the synthesized no-CLUT palette,
`(i & 0x1F) | ((i & 0x1F) << 5) | ((i & 0x1F) << 10)`. -/
def fallbackColor (i : Nat) : Nat :=
  (i &&& 0x1F) ||| ((i &&& 0x1F) <<< 5) ||| ((i &&& 0x1F) <<< 10)

/-- The synthesized palette of `n` entries (`n = 16` for 4bpp, `256` for 8bpp). -/
def fallbackPalette (n : Nat) : List Nat := (List.range n).map fallbackColor

/-- Line 129: red channel expansion `(c & 0x1F) << 3`. -/
def expandR (c : Nat) : Nat := (c &&& 0x1F) <<< 3

/-- Line 130: green channel expansion `((c >> 5) & 0x1F) << 3`. -/
def expandG (c : Nat) : Nat := ((c >>> 5) &&& 0x1F) <<< 3

/-- Line 131: blue channel expansion `((c >> 10) & 0x1F) << 3`. -/
def expandB (c : Nat) : Nat := ((c >>> 10) &&& 0x1F) <<< 3

/-- A packed 16-bit color expanded to the RGB888 triple the image receives. -/
def expandColor (c : Nat) : Nat × Nat × Nat := (expandR c, expandG c, expandB c)

/-- 24bpp payload: raw bytes taken three at a time as (R, G, B). -/
def rgbTriples : List Nat → List (Nat × Nat × Nat)
  | r :: g :: b :: rest => (r, g, b) :: rgbTriples rest
  | _ => []

/-- Lines 50-77 of `read_tim`: magic check, flags, and the optional CLUT block
(block size, header fields, payload reshaped into palette rows).  Palette row
selection is applied by `read_tim` itself, between this parse and the image
block, in the same order as the source. -/
def parseToClut (data : List Nat) : Except TimError ParsedFile :=
  match u32le? data with
  | none => .error .structError
  | some magic =>
    if magic ≠ 0x10 then .error .badMagic
    else
      match u32le? (data.drop 4) with
      | none => .error .structError
      | some flags =>
        let hasClut := flags &&& 0x08 ≠ 0
        let bppMode := flags &&& 0x07
        match (match bppMode with
               | 0 => some 4 | 1 => some 8 | 2 => some 16 | 3 => some 24
               | _ => none) with
        | none => .error .unsupportedBpp
        | some bpp =>
          let rest := data.drop 8
          if hasClut then
            match u32le? rest with
            | none => .error .structError
            | some blockSize =>
              match u16x4? (rest.drop 4) with
              | none => .error .structError
              | some (_clutX, _clutY, clutW, _clutH) =>
                let body := rest.drop 12
                -- `f.read(blockSize - 12)`: Python reads to EOF on a negative
                -- argument, hence the case split.
                let nClut := if blockSize < 12 then body.length else blockSize - 12
                let clutData := body.take nClut
                if clutData.length % 2 ≠ 0 then .error .frombufferError
                else .ok ⟨bpp, some (clutReshape (readU16s clutData) clutW), body.drop nClut⟩
          else .ok ⟨bpp, none, rest⟩

/-- Lines 79-135 of `read_tim`: the image block.  `rest` is the stream right
after the CLUT (or after the flags when there is no CLUT); `selectedPalette?`
is the chosen CLUT row, `none` when the file has no CLUT. -/
def decodeImageBlock (bpp : Nat) (selectedPalette? : Option (List Nat))
    (rest : List Nat) : Except TimError DecodedImage :=
  match u32le? rest with
  | none => .error .structError
  | some _imgBlockSize =>
    match u16x4? (rest.drop 4) with
    | none => .error .structError
    | some (_x, _y, wWords, h) =>
      -- lines 82-87: width in pixels derived from the stored word count
      let w := if bpp = 4 then wWords * 4 else if bpp = 8 then wWords * 2 else wWords
      let rawData := rest.drop 12
      if bpp = 4 then
        let numPixels := w * h
        let bytesNeeded := (numPixels + 1) / 2
        let pxBytes := rawData.take bytesNeeded
        match unpack4 pxBytes numPixels with
        | .error e => .error e
        | .ok idxs =>
          let pal := match selectedPalette? with
                     | none => fallbackPalette 16
                     | some p => p
          match lookupAll pal idxs with
          | .error e => .error e
          | .ok colorVals => .ok ⟨w, h, colorVals.map expandColor⟩
      else if bpp = 8 then
        let pxBytes := rawData.take (w * h)
        -- `reshape((h, w))` demands exactly `w * h` pixel bytes
        if pxBytes.length ≠ w * h then .error .valueError
        else
          let pal := match selectedPalette? with
                     | none => fallbackPalette 256
                     | some p => p
          match lookupAll pal pxBytes with
          | .error e => .error e
          | .ok colorVals => .ok ⟨w, h, colorVals.map expandColor⟩
      else if bpp = 16 then
        let bytes := rawData.take (w * h * 2)
        if bytes.length % 2 ≠ 0 then .error .frombufferError
        else if (readU16s bytes).length ≠ w * h then .error .valueError
        else .ok ⟨w, h, (readU16s bytes).map expandColor⟩
      else
        let bytes := rawData.take (w * h * 3)
        -- `Image.frombytes` demands the full `w * h * 3` bytes
        if bytes.length ≠ w * h * 3 then .error .valueError
        else .ok ⟨w, h, rgbTriples bytes⟩

/-- The whole of `read_tim` (lines 45-135): parse header and CLUT, select the
requested palette row, then decode the image block. -/
def read_tim (data : List Nat) (paletteIndex : Int) : Except TimError DecodedImage :=
  match parseToClut data with
  | .error e => .error e
  | .ok pf =>
    match pf.rows? with
    | none => decodeImageBlock pf.bpp none pf.rest
    | some rows =>
      match selectPalette rows paletteIndex with
      | .error e => .error e
      | .ok pal => decodeImageBlock pf.bpp (some pal) pf.rest

/-- The exceptions `image_to_tim` can raise. -/
inductive EncodeError where
  /-- `NotImplementedError("Only 4bpp and 8bpp supported ...")`, line 145. -/
  | unsupportedBpp
  /-- `struct.error`: a header field does not fit its `struct.pack` format. -/
  | packError
  deriving DecidableEq, Repr

/-- The encoder's input, a PIL image already in `'P'` (palette) mode:
`palette` is the flat `image.getpalette()` list of 8-bit values (R, G, B per
entry), `pixels` the row-major `np.array(image)` of 8-bit palette indices.
(The source first converts other modes to `'P'` through PIL; that external
conversion is outside the codec and is not modelled.) -/
structure PImage where
  width : Nat
  height : Nat
  palette : List Nat
  pixels : List Nat
  deriving DecidableEq, Repr

/-- Lines 165-168: quantize an RGB888 triple into a packed 16-bit color,
`(b >> 3) << 10 | (g >> 3) << 5 | (r >> 3)`. -/
def quantize (r g b : Nat) : Nat :=
  ((b >>> 3) <<< 10) ||| ((g >>> 3) <<< 5) ||| (r >>> 3)

/-- Lines 160-169: CLUT entry `i` built from the flat palette list; when the
palette has no entry `i` (`idx + 2 >= len(palette)`) the channels are zero,
which packs to the same value as quantizing black.  The final `& 0xFFFF`
mirrors the source. -/
def clutColor (palette : List Nat) (i : Nat) : Nat :=
  let idx := i * 3
  if palette.length ≤ idx + 2 then quantize 0 0 0 &&& 0xFFFF
  else
    quantize (palette.getD idx 0) (palette.getD (idx + 1) 0)
      (palette.getD (idx + 2) 0) &&& 0xFFFF

/-- Line 189: `np.clip(flat_pixels, 0, 15)` on unsigned bytes. -/
def clip15 (x : Nat) : Nat := min x 15

/-- Lines 190-194: pack pairs of consecutive 4-bit indices into bytes,
`(second << 4) | first`, the missing partner of a final odd index being 0. -/
def pack4 : List Nat → List Nat
  | [] => []
  | [a] => [(0 <<< 4) ||| a]
  | a :: b :: rest => ((b <<< 4) ||| a) :: pack4 rest

/-- The whole of `image_to_tim` (lines 138-205) for a `'P'`-mode input: CLUT
of 16 (4bpp) or 256 (8bpp) quantized entries, header assembly, and pixel
packing.  `struct.pack` range errors on the `"<4H"` image-header fields and
the `"<I"` block sizes are modelled by the explicit gate. -/
def image_to_tim (img : PImage) (bpp : Nat) : Except EncodeError (List Nat) :=
  if bpp ≠ 4 ∧ bpp ≠ 8 then .error .unsupportedBpp
  else
    let palLen := if bpp = 4 then 16 else 256
    let clutColors := (List.range palLen).map (clutColor img.palette)
    let clutData := (clutColors.map u16leBytes).flatten
    let clutW := palLen
    let clutH := 1
    let flagsVal := 0x08 ||| (if bpp = 4 then 0 else 1)
    let clutBlockSize := 12 + clutData.length
    let wWords := if bpp = 4 then (img.width + 3) / 4 else (img.width + 1) / 2
    let pixelBytes := if bpp = 4 then pack4 (img.pixels.map clip15) else img.pixels
    let imgBlockSize := 12 + pixelBytes.length
    if 65536 ≤ wWords ∨ 65536 ≤ img.height ∨ 4294967296 ≤ imgBlockSize then
      .error .packError
    else
      .ok (u32leBytes 0x10 ++ u32leBytes flagsVal ++
           u32leBytes clutBlockSize ++ u16leBytes 0 ++ u16leBytes 0 ++
           u16leBytes clutW ++ u16leBytes clutH ++ clutData ++
           u32leBytes imgBlockSize ++ u16leBytes 0 ++ u16leBytes 0 ++
           u16leBytes wWords ++ u16leBytes img.height ++ pixelBytes)

/-- A 4bpp TIM file whose CLUT header declares width 2 and height 1 while its
payload holds four colors (1, 2, 3, 4) — twice what the header promises. -/
def clutFileC4 : List Nat :=
  [16, 0, 0, 0, 8, 0, 0, 0, 20, 0, 0, 0, 0, 0, 0, 0, 2, 0, 1, 0,
   1, 0, 2, 0, 3, 0, 4, 0]

/-- A well-formed 4bpp TIM file with a two-row CLUT (width 1, colors 0x7FFF
then 0x0000) and a 4x1 all-zero-index image block. -/
def timFileC5 : List Nat :=
  [16, 0, 0, 0, 8, 0, 0, 0, 16, 0, 0, 0, 0, 0, 0, 0, 1, 0, 2, 0,
   255, 127, 0, 0,
   14, 0, 0, 0, 0, 0, 0, 0, 1, 0, 1, 0, 0, 0]

/-- The 2x1 4bpp encoder input whose first pixel index 16 lies outside the
4bpp range [0, 15]. -/
def clipImgC6 : PImage := ⟨2, 1, [0, 0, 0], [16, 1]⟩


/-- A 1x1 4bpp encoder input: its width 1 is not a multiple of 4. -/
def oneByOneImg : PImage := ⟨1, 1, [255, 0, 0], [5]⟩

/-- A 4x1 4bpp encoder input with 4-aligned width and in-range indices. -/
def alignedImgC1 : PImage := ⟨4, 1, [255, 0, 0, 0, 255, 0], [0, 1, 2, 3]⟩

/-! ### Arithmetic bridges between the bitwise source operations and `Nat`
division and remainder. -/

theorem and_31 (x : Nat) : x &&& 31 = x % 32 := by
  have h := Nat.and_pow_two_sub_one_eq_mod x 5
  norm_num at h
  exact h

theorem and_15 (x : Nat) : x &&& 15 = x % 16 := by
  have h := Nat.and_pow_two_sub_one_eq_mod x 4
  norm_num at h
  exact h

theorem and_65535 (x : Nat) : x &&& 65535 = x % 65536 := by
  have h := Nat.and_pow_two_sub_one_eq_mod x 16
  norm_num at h
  exact h

theorem shiftR3 (x : Nat) : x >>> 3 = x / 8 := by
  rw [Nat.shiftRight_eq_div_pow]

theorem shiftR4 (x : Nat) : x >>> 4 = x / 16 := by
  rw [Nat.shiftRight_eq_div_pow]

theorem shiftR5 (x : Nat) : x >>> 5 = x / 32 := by
  rw [Nat.shiftRight_eq_div_pow]

theorem shiftR10 (x : Nat) : x >>> 10 = x / 1024 := by
  rw [Nat.shiftRight_eq_div_pow]

theorem orPack : ∀ z < 32, ∀ y < 32, ∀ x < 32,
    ((z <<< 10) ||| (y <<< 5)) ||| x = 1024 * z + 32 * y + x := by decide

theorem orPack16 : ∀ b < 16, ∀ a < 16, (b <<< 4) ||| a = 16 * b + a := by decide

theorem expandR_eq (c : Nat) : expandR c = c % 32 * 8 := by
  unfold expandR
  rw [show (0x1F : Nat) = 31 from rfl, and_31, Nat.shiftLeft_eq]

theorem expandG_eq (c : Nat) : expandG c = c / 32 % 32 * 8 := by
  unfold expandG
  rw [show (0x1F : Nat) = 31 from rfl, shiftR5, and_31, Nat.shiftLeft_eq]

theorem expandB_eq (c : Nat) : expandB c = c / 1024 % 32 * 8 := by
  unfold expandB
  rw [show (0x1F : Nat) = 31 from rfl, shiftR10, and_31, Nat.shiftLeft_eq]

theorem quantize_eq (r g b : Nat) (hr : r < 256) (hg : g < 256) (hb : b < 256) :
    quantize r g b = 1024 * (b / 8) + 32 * (g / 8) + r / 8 := by
  unfold quantize
  rw [shiftR3 r, shiftR3 g, shiftR3 b,
    orPack (b / 8) (by omega) (g / 8) (by omega) (r / 8) (by omega)]

/-! ### List-level facts about the codec building blocks. -/

theorem getElem?_eq_some_getD {l : List Nat} {k : Nat} (h : k < l.length) :
    l[k]? = some (l.getD k 0) := by
  rw [List.getElem?_eq_getElem h, List.getD_eq_getElem?_getD,
    List.getElem?_eq_getElem h, Option.getD_some]

theorem getD_lt_of_forall {l : List Nat} {m : Nat} (h : ∀ x ∈ l, x < m)
    (hm : 0 < m) (k : Nat) : l.getD k 0 < m := by
  rcases Nat.lt_or_ge k l.length with hk | hk
  · rw [List.getD_eq_getElem?_getD, List.getElem?_eq_getElem hk, Option.getD_some]
    exact h _ (List.getElem_mem hk)
  · rw [List.getD_eq_getElem?_getD, List.getElem?_eq_none hk]
    simpa using hm

theorem mapExcept_ok {f : Nat → Except TimError Nat} {g : Nat → Nat} :
    ∀ {l : List Nat}, (∀ a ∈ l, f a = .ok (g a)) → mapExcept f l = .ok (l.map g)
  | [], _ => rfl
  | a :: l, h => by
    have ha := h a (List.mem_cons_self a l)
    have hrest := mapExcept_ok (l := l) fun x hx => h x (List.mem_cons_of_mem a hx)
    simp [mapExcept, ha, hrest]

theorem range_map_getD (l : List Nat) :
    (List.range l.length).map (fun i => l.getD i 0) = l := by
  apply List.ext_getElem?
  intro n
  rcases Nat.lt_or_ge n l.length with hn | hn
  · rw [List.getElem?_map, List.getElem?_range hn, getElem?_eq_some_getD hn]
    rfl
  · rw [List.getElem?_map, List.getElem?_eq_none (by simpa using hn),
      List.getElem?_eq_none hn]
    rfl

theorem nilAppendF (l : List Nat) : ([] : List Nat).append l = l := rfl

theorem u16le_leBytes {v : Nat} (hv : v < 65536) :
    u16le (v % 256) (v / 256 % 256) = v := by
  unfold u16le
  omega

theorem u32le?_leBytes (v : Nat) (rest : List Nat) :
    u32le? (u32leBytes v ++ rest) = some (v % 4294967296) := by
  simp only [u32leBytes, List.cons_append, List.nil_append, u32le?,
    Option.some.injEq]
  omega

theorem readU16s_flatten :
    ∀ cs : List Nat, (∀ c ∈ cs, c < 65536) →
      readU16s ((cs.map u16leBytes).flatten) = cs
  | [], _ => rfl
  | c :: cs, h => by
    have hc := h c (List.mem_cons_self c cs)
    have hrest := readU16s_flatten cs fun x hx => h x (List.mem_cons_of_mem c hx)
    simp only [List.map_cons, List.flatten_cons, u16leBytes, List.cons_append,
      List.nil_append, nilAppendF, readU16s, hrest]
    rw [u16le_leBytes hc]

theorem flatten_u16_length :
    ∀ cs : List Nat, ((cs.map u16leBytes).flatten).length = 2 * cs.length
  | [] => rfl
  | c :: cs => by
    simp only [List.map_cons, List.flatten_cons, List.length_append,
      flatten_u16_length cs, u16leBytes, List.length_cons, List.length_nil,
      List.length_map]
    omega

theorem lookup1_ok {pal : List Nat} {i : Nat} (h : i < pal.length) :
    lookup1 pal i = .ok (pal.getD i 0) := by
  unfold lookup1
  rw [getElem?_eq_some_getD h]

theorem lookupAll_ok {pal idxs : List Nat} (h : ∀ i ∈ idxs, i < pal.length) :
    lookupAll pal idxs = .ok (idxs.map fun i => pal.getD i 0) :=
  mapExcept_ok fun i hi => lookup1_ok (h i hi)

theorem pack4_length : ∀ l : List Nat, (pack4 l).length = (l.length + 1) / 2
  | [] => rfl
  | [_] => by simp [pack4]
  | _ :: _ :: t => by
    simp only [pack4, List.length_cons, pack4_length t]
    omega

theorem pack4_getElem? :
    ∀ (l : List Nat) (j : Nat), j < (l.length + 1) / 2 →
      (pack4 l)[j]? = some ((l.getD (2 * j + 1) 0 <<< 4) ||| l.getD (2 * j) 0)
  | [], j, h => by simp at h
  | [a], j, h => by
    have hj : j = 0 := by simp at h; omega
    subst hj
    simp [pack4]
  | a :: b :: t, 0, _ => by simp [pack4]
  | a :: b :: t, j + 1, h => by
    have ht : j < (t.length + 1) / 2 := by
      simp only [List.length_cons] at h
      omega
    have e1 : 2 * (j + 1) + 1 = 2 * j + 1 + 1 + 1 := by omega
    have e2 : 2 * (j + 1) = 2 * j + 1 + 1 := by omega
    simp only [pack4, List.getElem?_cons_succ, pack4_getElem? t j ht, e1, e2,
      List.getD_cons_succ]


theorem map_clip15_id {l : List Nat} (h : ∀ x ∈ l, x ≤ 15) : l.map clip15 = l := by
  have hc : ∀ a ∈ l, clip15 a = id a := fun a ha => by
    unfold clip15
    simp [Nat.min_eq_left (h a ha)]
  rw [List.map_congr_left hc, List.map_id]

theorem nibbleAt_pack4 {l : List Nat} (h : ∀ x ∈ l, x < 16) {i : Nat}
    (hi : i < l.length) : nibbleAt (pack4 l) i = .ok (l.getD i 0) := by
  have hj : i / 2 < (l.length + 1) / 2 := by omega
  have hb := pack4_getElem? l (i / 2) hj
  have haLt : l.getD (2 * (i / 2)) 0 < 16 := getD_lt_of_forall h (by omega) _
  have hbLt : l.getD (2 * (i / 2) + 1) 0 < 16 := getD_lt_of_forall h (by omega) _
  have hOr := orPack16 _ hbLt _ haLt
  have hiLt : l.getD i 0 < 16 := getD_lt_of_forall h (by omega) i
  simp only [nibbleAt, hb, hOr]
  by_cases hp : i % 2 = 0
  · have h2 : 2 * (i / 2) = i := by omega
    rw [if_pos hp, show (0x0F : Nat) = 15 from rfl, and_15, h2]
    rw [h2] at haLt
    congr 1
    omega
  · have h2 : 2 * (i / 2) + 1 = i := by omega
    rw [if_neg hp, show (0x0F : Nat) = 15 from rfl, shiftR4, and_15, h2]
    rw [h2] at hbLt
    congr 1
    omega

theorem unpack4_pack4 {l : List Nat} (h : ∀ x ∈ l, x < 16) :
    unpack4 (pack4 l) l.length = .ok l := by
  unfold unpack4
  rw [mapExcept_ok (g := fun i => l.getD i 0) fun i hi =>
    nibbleAt_pack4 h (List.mem_range.mp hi), range_map_getD]

theorem unpack4_ok {pxBytes : List Nat} {n : Nat}
    (hlen : (n + 1) / 2 ≤ pxBytes.length) :
    unpack4 pxBytes n = .ok ((List.range n).map fun i =>
      if i % 2 = 0 then pxBytes.getD (i / 2) 0 &&& 0x0F
      else (pxBytes.getD (i / 2) 0 >>> 4) &&& 0x0F) := by
  unfold unpack4
  apply mapExcept_ok
  intro i hi
  have hi2 : i / 2 < pxBytes.length := by
    have := List.mem_range.mp hi
    omega
  simp only [nibbleAt, getElem?_eq_some_getD hi2]

theorem chunksAux_nil (w : Nat) : ∀ fuel, chunksAux w fuel [] = []
  | 0 => rfl
  | _ + 1 => rfl

theorem chunksAux_spec {w : Nat} (hw : 0 < w) :
    ∀ (fuel : Nat) (l : List Nat), l.length ≤ fuel → w ∣ l.length →
      (chunksAux w fuel l).length = l.length / w ∧
      (chunksAux w fuel l).flatten = l ∧
      ∀ r ∈ chunksAux w fuel l, r.length = w := by
  intro fuel
  induction fuel with
  | zero =>
    intro l hl _
    have hnil : l = [] := List.length_eq_zero.mp (Nat.le_zero.mp hl)
    subst hnil
    simp [chunksAux]
  | succ fuel ih =>
    intro l hl hdvd
    cases l with
    | nil => simp [chunksAux]
    | cons a t =>
      have hpos : 0 < (a :: t).length := by simp
      have hlen : w ≤ (a :: t).length := Nat.le_of_dvd hpos hdvd
      have hdrop : w ∣ ((a :: t).drop w).length := by
        rw [List.length_drop]
        exact Nat.dvd_sub' hdvd dvd_rfl
      have hfuel : ((a :: t).drop w).length ≤ fuel := by
        rw [List.length_drop]
        simp only [List.length_cons] at hl ⊢
        omega
      obtain ⟨ih1, ih2, ih3⟩ := ih _ hfuel hdrop
      refine ⟨?_, ?_, ?_⟩
      · simp only [chunksAux, List.length_cons, ih1, List.length_drop]
        obtain ⟨k, hk⟩ := hdvd
        simp only [List.length_cons] at hk
        rw [hk]
        cases k with
        | zero =>
          rw [Nat.mul_zero] at hk
          simp at hk
        | succ k0 =>
          have e : w * (k0 + 1) - w = w * k0 := by
            rw [Nat.mul_succ]
            omega
          rw [e, Nat.mul_div_cancel_left _ hw, Nat.mul_div_cancel_left _ hw]
      · simp only [chunksAux, List.flatten_cons, ih2, List.take_append_drop]
      · intro r hr
        simp only [chunksAux, List.mem_cons] at hr
        rcases hr with hr | hr
        · subst hr
          rw [List.length_take]
          omega
        · exact ih3 r hr

theorem chunks_self {l : List Nat} (hl : 0 < l.length) : chunks l.length l = [l] := by
  obtain ⟨a, t, rfl⟩ : ∃ a t, l = a :: t := by
    cases l with
    | nil => simp at hl
    | cons a t => exact ⟨a, t, rfl⟩
  show chunksAux (a :: t).length (t.length + 1) (a :: t) = [a :: t]
  simp [chunksAux, chunksAux_nil]

theorem clutReshape_divisible {colors : List Nat} {w : Nat} (hw : 0 < w)
    (hdvd : w ∣ colors.length) :
    (clutReshape colors w).length = colors.length / w ∧
    (clutReshape colors w).flatten = colors ∧
    ∀ r ∈ clutReshape colors w, r.length = w := by
  unfold clutReshape chunks
  rw [if_pos ⟨hw, Nat.mod_eq_zero_of_dvd hdvd⟩]
  exact chunksAux_spec hw _ _ le_rfl hdvd

theorem clutReshape_fallback {colors : List Nat} {w : Nat}
    (h : w = 0 ∨ colors.length % w ≠ 0) : clutReshape colors w = [colors] := by
  unfold clutReshape
  rw [if_neg]
  rintro ⟨hw, hmod⟩
  rcases h with h | h
  · omega
  · exact h hmod

theorem selectPalette_ge {rows : List (List Nat)} {p : Int}
    (h : (rows.length : Int) ≤ p) : selectPalette rows p = selectPalette rows 0 := by
  unfold selectPalette
  rw [if_pos h]
  by_cases h0 : (rows.length : Int) ≤ 0
  · rw [if_pos h0]
  · rw [if_neg h0]

theorem selectPalette_nonneg {rows : List (List Nat)} {p : Int}
    (h1 : 0 ≤ p) (h2 : p < (rows.length : Int)) :
    selectPalette rows p = .ok (rows.getD p.toNat []) := by
  unfold selectPalette
  rw [if_neg (show ¬ (rows.length : Int) ≤ p by omega)]
  unfold pyRow
  rw [if_pos ⟨h1, h2⟩]

theorem selectPalette_negIdx {rows : List (List Nat)} {p : Int}
    (h1 : -(rows.length : Int) ≤ p) (h2 : p < 0) :
    selectPalette rows p = .ok (rows.getD ((rows.length : Int) + p).toNat []) := by
  unfold selectPalette
  rw [if_neg (show ¬ (rows.length : Int) ≤ p by omega)]
  unfold pyRow
  rw [if_neg (show ¬ (0 ≤ p ∧ p < (rows.length : Int)) by omega), if_pos ⟨h1, h2⟩]

theorem drop_append_ge :
    ∀ {l₁ l₂ : List Nat} {n : Nat}, l₁.length ≤ n →
      (l₁ ++ l₂).drop n = l₂.drop (n - l₁.length)
  | [], l₂, n, _ => by simp
  | a :: t, l₂, n, h => by
    cases n with
    | zero => simp at h
    | succ m =>
      simp only [List.cons_append, List.drop_succ_cons, List.length_cons]
      rw [drop_append_ge (show t.length ≤ m by simpa using h)]
      congr 1
      omega


theorem u16le_mod (v : Nat) : u16le (v % 256) (v / 256 % 256) = v % 65536 := by
  unfold u16le
  omega

theorem clutColor_lt (pal : List Nat) (i : Nat) : clutColor pal i < 65536 := by
  show (if pal.length ≤ i * 3 + 2 then quantize 0 0 0 &&& 65535
    else quantize (pal.getD (i * 3) 0) (pal.getD (i * 3 + 1) 0)
      (pal.getD (i * 3 + 2) 0) &&& 65535) < 65536
  split
  · exact Nat.lt_succ_of_le Nat.and_le_right
  · exact Nat.lt_succ_of_le Nat.and_le_right

theorem parseToClut_enc4 (body rest2 : List Nat) (hlen : body.length = 32) :
    parseToClut ([16, 0, 0, 0, 8, 0, 0, 0, 44, 0, 0, 0, 0, 0, 0, 0, 16, 0, 1, 0] ++
        (body ++ rest2))
      = .ok ⟨4, some (clutReshape (readU16s ((body ++ rest2).take 32)) 16),
          (body ++ rest2).drop 32⟩ := by
  show (if ((body ++ rest2).take 32).length % 2 ≠ 0 then
          (Except.error TimError.frombufferError : Except TimError ParsedFile)
        else .ok ⟨4, some (clutReshape (readU16s ((body ++ rest2).take 32)) 16),
          (body ++ rest2).drop 32⟩)
      = .ok ⟨4, some (clutReshape (readU16s ((body ++ rest2).take 32)) 16),
          (body ++ rest2).drop 32⟩
  rw [if_neg]
  rw [List.take_left' hlen, hlen]
  decide

theorem parseToClut_enc8 (body rest2 : List Nat) (hlen : body.length = 512) :
    parseToClut ([16, 0, 0, 0, 9, 0, 0, 0, 12, 2, 0, 0, 0, 0, 0, 0, 0, 1, 1, 0] ++
        (body ++ rest2))
      = .ok ⟨8, some (clutReshape (readU16s ((body ++ rest2).take 512)) 256),
          (body ++ rest2).drop 512⟩ := by
  show (if ((body ++ rest2).take 512).length % 2 ≠ 0 then
          (Except.error TimError.frombufferError : Except TimError ParsedFile)
        else .ok ⟨8, some (clutReshape (readU16s ((body ++ rest2).take 512)) 256),
          (body ++ rest2).drop 512⟩)
      = .ok ⟨8, some (clutReshape (readU16s ((body ++ rest2).take 512)) 256),
          (body ++ rest2).drop 512⟩
  rw [if_neg]
  rw [List.take_left' hlen, hlen]
  decide

theorem decodeImageBlock_enc4 (row pb : List Nat) (sz wW h : Nat)
    (hwW : wW < 65536) (hh : h < 65536) :
    decodeImageBlock 4 (some row)
      (u32leBytes sz ++ ([0, 0, 0, 0] ++ (u16leBytes wW ++ (u16leBytes h ++ pb))))
      = (match unpack4 (pb.take ((wW * 4 * h + 1) / 2)) (wW * 4 * h) with
         | Except.error e => (Except.error e : Except TimError DecodedImage)
         | Except.ok idxs =>
           match lookupAll row idxs with
           | Except.error e => Except.error e
           | Except.ok colorVals =>
             Except.ok ⟨wW * 4, h, colorVals.map expandColor⟩) := by
  show (match unpack4 (pb.take ((u16le (wW % 256) (wW / 256 % 256) * 4 *
            u16le (h % 256) (h / 256 % 256) + 1) / 2))
          (u16le (wW % 256) (wW / 256 % 256) * 4 * u16le (h % 256) (h / 256 % 256)) with
       | Except.error e => (Except.error e : Except TimError DecodedImage)
       | Except.ok idxs =>
         match lookupAll row idxs with
         | Except.error e => Except.error e
         | Except.ok colorVals =>
           Except.ok ⟨u16le (wW % 256) (wW / 256 % 256) * 4,
             u16le (h % 256) (h / 256 % 256), colorVals.map expandColor⟩)
      = (match unpack4 (pb.take ((wW * 4 * h + 1) / 2)) (wW * 4 * h) with
         | Except.error e => (Except.error e : Except TimError DecodedImage)
         | Except.ok idxs =>
           match lookupAll row idxs with
           | Except.error e => Except.error e
           | Except.ok colorVals =>
             Except.ok ⟨wW * 4, h, colorVals.map expandColor⟩)
  rw [u16le_mod wW, u16le_mod h, Nat.mod_eq_of_lt hwW, Nat.mod_eq_of_lt hh]

theorem decodeImageBlock_enc8 (row pb : List Nat) (sz wW h : Nat)
    (hwW : wW < 65536) (hh : h < 65536) :
    decodeImageBlock 8 (some row)
      (u32leBytes sz ++ ([0, 0, 0, 0] ++ (u16leBytes wW ++ (u16leBytes h ++ pb))))
      = (if (pb.take (wW * 2 * h)).length ≠ wW * 2 * h then
           (Except.error TimError.valueError : Except TimError DecodedImage)
         else match lookupAll row (pb.take (wW * 2 * h)) with
           | Except.error e => Except.error e
           | Except.ok colorVals => Except.ok ⟨wW * 2, h, colorVals.map expandColor⟩) := by
  show (if (pb.take (u16le (wW % 256) (wW / 256 % 256) * 2 *
            u16le (h % 256) (h / 256 % 256))).length ≠
          u16le (wW % 256) (wW / 256 % 256) * 2 * u16le (h % 256) (h / 256 % 256) then
          (Except.error TimError.valueError : Except TimError DecodedImage)
        else match lookupAll row (pb.take (u16le (wW % 256) (wW / 256 % 256) * 2 *
            u16le (h % 256) (h / 256 % 256))) with
          | Except.error e => Except.error e
          | Except.ok colorVals =>
            Except.ok ⟨u16le (wW % 256) (wW / 256 % 256) * 2,
              u16le (h % 256) (h / 256 % 256), colorVals.map expandColor⟩)
      = (if (pb.take (wW * 2 * h)).length ≠ wW * 2 * h then
           (Except.error TimError.valueError : Except TimError DecodedImage)
         else match lookupAll row (pb.take (wW * 2 * h)) with
           | Except.error e => Except.error e
           | Except.ok colorVals => Except.ok ⟨wW * 2, h, colorVals.map expandColor⟩)
  rw [u16le_mod wW, u16le_mod h, Nat.mod_eq_of_lt hwW, Nat.mod_eq_of_lt hh]

theorem image_to_tim_4bpp (img : PImage)
    (hW : (img.width + 3) / 4 < 65536) (hH : img.height < 65536)
    (hSz : 12 + (pack4 (img.pixels.map clip15)).length < 4294967296) :
    image_to_tim img 4 = .ok (
      [16, 0, 0, 0, 8, 0, 0, 0, 44, 0, 0, 0, 0, 0, 0, 0, 16, 0, 1, 0] ++
      ((((List.range 16).map (clutColor img.palette)).map u16leBytes).flatten ++
       (u32leBytes (12 + (pack4 (img.pixels.map clip15)).length) ++
        ([0, 0, 0, 0] ++
         (u16leBytes ((img.width + 3) / 4) ++
          (u16leBytes img.height ++ pack4 (img.pixels.map clip15))))))) := by
  have hflat : ((((List.range 16).map (clutColor img.palette)).map
      u16leBytes).flatten).length = 32 := by
    rw [flatten_u16_length, List.length_map, List.length_range]
  unfold image_to_tim
  rw [if_neg (show ¬((4 : Nat) ≠ 4 ∧ (4 : Nat) ≠ 8) by decide)]
  simp only [reduceIte, hflat, Nat.reduceAdd, Nat.or_zero]
  rw [if_neg (show ¬(65536 ≤ (img.width + 3) / 4 ∨ 65536 ≤ img.height ∨
    4294967296 ≤ 12 + (pack4 (img.pixels.map clip15)).length) by omega)]
  simp only [u32leBytes, u16leBytes, Nat.reduceMod, Nat.reduceDiv,
    List.cons_append, List.nil_append, List.append_assoc]

theorem image_to_tim_8bpp (img : PImage)
    (hW : (img.width + 1) / 2 < 65536) (hH : img.height < 65536)
    (hSz : 12 + img.pixels.length < 4294967296) :
    image_to_tim img 8 = .ok (
      [16, 0, 0, 0, 9, 0, 0, 0, 12, 2, 0, 0, 0, 0, 0, 0, 0, 1, 1, 0] ++
      ((((List.range 256).map (clutColor img.palette)).map u16leBytes).flatten ++
       (u32leBytes (12 + img.pixels.length) ++
        ([0, 0, 0, 0] ++
         (u16leBytes ((img.width + 1) / 2) ++
          (u16leBytes img.height ++ img.pixels)))))) := by
  have hflat : ((((List.range 256).map (clutColor img.palette)).map
      u16leBytes).flatten).length = 512 := by
    rw [flatten_u16_length, List.length_map, List.length_range]
  unfold image_to_tim
  rw [if_neg (show ¬((8 : Nat) ≠ 4 ∧ (8 : Nat) ≠ 8) by decide)]
  simp only [Nat.reduceEqDiff, reduceIte, hflat, Nat.reduceAdd,
    show (8 : Nat) ||| 1 = 9 by decide]
  rw [if_neg (show ¬(65536 ≤ (img.width + 1) / 2 ∨ 65536 ≤ img.height ∨
    4294967296 ≤ 12 + img.pixels.length) by omega)]
  simp only [u32leBytes, u16leBytes, Nat.reduceMod, Nat.reduceDiv,
    List.cons_append, List.nil_append, List.append_assoc]

theorem read_tim_enc4 (pal pix : List Nat) (sz wW h : Nat)
    (hwW : wW < 65536) (hh : h < 65536)
    (hlen : pix.length = wW * 4 * h) (hpix : ∀ x ∈ pix, x < 16) :
    read_tim ([16, 0, 0, 0, 8, 0, 0, 0, 44, 0, 0, 0, 0, 0, 0, 0, 16, 0, 1, 0] ++
        ((((List.range 16).map (clutColor pal)).map u16leBytes).flatten ++
         (u32leBytes sz ++ ([0, 0, 0, 0] ++
          (u16leBytes wW ++ (u16leBytes h ++ pack4 pix)))))) 0
      = .ok ⟨wW * 4, h,
          (pix.map fun i => ((List.range 16).map (clutColor pal)).getD i 0).map
            expandColor⟩ := by
  have hblen : ((((List.range 16).map (clutColor pal)).map
      u16leBytes).flatten).length = 32 := by
    rw [flatten_u16_length, List.length_map, List.length_range]
  have hparse := parseToClut_enc4
    ((((List.range 16).map (clutColor pal)).map u16leBytes).flatten)
    (u32leBytes sz ++ ([0, 0, 0, 0] ++ (u16leBytes wW ++ (u16leBytes h ++ pack4 pix))))
    hblen
  rw [List.take_left' hblen, List.drop_left' hblen] at hparse
  have hcolors : readU16s ((((List.range 16).map (clutColor pal)).map
      u16leBytes).flatten) = (List.range 16).map (clutColor pal) := by
    apply readU16s_flatten
    intro c hc
    obtain ⟨i, _, rfl⟩ := List.mem_map.mp hc
    exact clutColor_lt pal i
  have h16 : ((List.range 16).map (clutColor pal)).length = 16 := by
    rw [List.length_map, List.length_range]
  have hreshape : clutReshape (readU16s
      ((((List.range 16).map (clutColor pal)).map u16leBytes).flatten)) 16
      = [(List.range 16).map (clutColor pal)] := by
    rw [hcolors]
    unfold clutReshape
    rw [if_pos ⟨by omega, by rw [h16]⟩]
    have hcs := chunks_self (l := (List.range 16).map (clutColor pal))
      (by rw [h16]; omega)
    rw [h16] at hcs
    exact hcs
  have hsel : selectPalette [(List.range 16).map (clutColor pal)] 0
      = .ok ((List.range 16).map (clutColor pal)) := by
    rw [selectPalette_nonneg (by omega) (by simp)]
    rfl
  have htake : (pack4 pix).take ((wW * 4 * h + 1) / 2) = pack4 pix := by
    apply List.take_of_length_le
    rw [pack4_length, hlen]
  have hup : unpack4 (pack4 pix) (wW * 4 * h) = .ok pix := by
    rw [← hlen]
    exact unpack4_pack4 hpix
  have hlook : lookupAll ((List.range 16).map (clutColor pal)) pix
      = .ok (pix.map fun i => ((List.range 16).map (clutColor pal)).getD i 0) := by
    apply lookupAll_ok
    intro i hi
    rw [h16]
    exact hpix i hi
  simp only [read_tim, hparse, hreshape, hsel,
    decodeImageBlock_enc4 _ _ sz wW h hwW hh, htake, hup, hlook]

theorem read_tim_enc8 (pal pix : List Nat) (sz wW h : Nat)
    (hwW : wW < 65536) (hh : h < 65536)
    (hlen : pix.length = wW * 2 * h) (hpix : ∀ x ∈ pix, x < 256) :
    read_tim ([16, 0, 0, 0, 9, 0, 0, 0, 12, 2, 0, 0, 0, 0, 0, 0, 0, 1, 1, 0] ++
        ((((List.range 256).map (clutColor pal)).map u16leBytes).flatten ++
         (u32leBytes sz ++ ([0, 0, 0, 0] ++
          (u16leBytes wW ++ (u16leBytes h ++ pix)))))) 0
      = .ok ⟨wW * 2, h,
          (pix.map fun i => ((List.range 256).map (clutColor pal)).getD i 0).map
            expandColor⟩ := by
  have hblen : ((((List.range 256).map (clutColor pal)).map
      u16leBytes).flatten).length = 512 := by
    rw [flatten_u16_length, List.length_map, List.length_range]
  have hparse := parseToClut_enc8
    ((((List.range 256).map (clutColor pal)).map u16leBytes).flatten)
    (u32leBytes sz ++ ([0, 0, 0, 0] ++ (u16leBytes wW ++ (u16leBytes h ++ pix))))
    hblen
  rw [List.take_left' hblen, List.drop_left' hblen] at hparse
  have hcolors : readU16s ((((List.range 256).map (clutColor pal)).map
      u16leBytes).flatten) = (List.range 256).map (clutColor pal) := by
    apply readU16s_flatten
    intro c hc
    obtain ⟨i, _, rfl⟩ := List.mem_map.mp hc
    exact clutColor_lt pal i
  have h256 : ((List.range 256).map (clutColor pal)).length = 256 := by
    rw [List.length_map, List.length_range]
  have hreshape : clutReshape (readU16s
      ((((List.range 256).map (clutColor pal)).map u16leBytes).flatten)) 256
      = [(List.range 256).map (clutColor pal)] := by
    rw [hcolors]
    unfold clutReshape
    rw [if_pos ⟨by omega, by rw [h256]⟩]
    have hcs := chunks_self (l := (List.range 256).map (clutColor pal))
      (by rw [h256]; omega)
    rw [h256] at hcs
    exact hcs
  have hsel : selectPalette [(List.range 256).map (clutColor pal)] 0
      = .ok ((List.range 256).map (clutColor pal)) := by
    rw [selectPalette_nonneg (by omega) (by simp)]
    rfl
  have htake : pix.take (wW * 2 * h) = pix := by
    apply List.take_of_length_le
    omega
  have hlook : lookupAll ((List.range 256).map (clutColor pal)) pix
      = .ok (pix.map fun i => ((List.range 256).map (clutColor pal)).getD i 0) := by
    apply lookupAll_ok
    intro i hi
    rw [h256]
    exact hpix i hi
  simp only [read_tim, hparse, hreshape, hsel,
    decodeImageBlock_enc8 _ _ sz wW h hwW hh, htake, hlook]
  rw [if_neg (by omega)]


/-! ### The claims. -/

/-- Claim C2: for every packed color with bit 15 clear, quantizing the
expanded channels recovers the color exactly; and for arbitrary 8-bit
channels, expanding the quantized color reproduces each channel to within
the 3-bit truncation bound of 7 (the expansion never exceeds the input). -/
theorem claim_C2 :
    (∀ c : Nat, c < 32768 →
      quantize (expandR c) (expandG c) (expandB c) = c) ∧
    (∀ r g b : Nat, r < 256 → g < 256 → b < 256 →
      (expandR (quantize r g b) ≤ r ∧ r - expandR (quantize r g b) ≤ 7) ∧
      (expandG (quantize r g b) ≤ g ∧ g - expandG (quantize r g b) ≤ 7) ∧
      (expandB (quantize r g b) ≤ b ∧ b - expandB (quantize r g b) ≤ 7)) := by
  constructor
  · intro c hc
    rw [expandR_eq, expandG_eq, expandB_eq,
      quantize_eq _ _ _ (by omega) (by omega) (by omega)]
    omega
  · intro r g b hr hg hb
    rw [quantize_eq r g b hr hg hb, expandR_eq, expandG_eq, expandB_eq]
    omega

/-- Claim C2 witness: instantiated at the aligned color 0x4210 and at the
channel triple (17, 130, 200). -/
theorem claim_C2_witness :
    (0x4210 : Nat) < 32768 ∧
    quantize (expandR 0x4210) (expandG 0x4210) (expandB 0x4210) = 0x4210 ∧
    (expandR (quantize 17 130 200) ≤ 17 ∧ 17 - expandR (quantize 17 130 200) ≤ 7) :=
  ⟨by decide, claim_C2.1 0x4210 (by decide),
   (claim_C2.2 17 130 200 (by decide) (by decide) (by decide)).1⟩

/-- Claim C3: in a 4bpp decode of `n` pixels from a sufficiently long
payload, the palette index of pixel `i` comes from payload byte `i / 2`,
taking the low nibble when `i` is even and the high nibble when `i` is odd. -/
theorem claim_C3 (pxBytes : List Nat) (n i : Nat) (hi : i < n)
    (hlen : (n + 1) / 2 ≤ pxBytes.length) :
    ∃ idxs, unpack4 pxBytes n = .ok idxs ∧
      idxs[i]? = some (if i % 2 = 0 then pxBytes.getD (i / 2) 0 &&& 0x0F
        else (pxBytes.getD (i / 2) 0 >>> 4) &&& 0x0F) := by
  refine ⟨_, unpack4_ok hlen, ?_⟩
  rw [List.getElem?_map, List.getElem?_range hi]
  rfl

/-- Claim C3 witness: pixel 1 of a 2-pixel decode of the byte 0x21 is the
high nibble 2. -/
theorem claim_C3_witness :
    1 < 2 ∧ (2 + 1) / 2 ≤ ([0x21] : List Nat).length ∧
    ∃ idxs, unpack4 [0x21] 2 = .ok idxs ∧
      idxs[1]? = some (if 1 % 2 = 0 then ([0x21] : List Nat).getD (1 / 2) 0 &&& 0x0F
        else (([0x21] : List Nat).getD (1 / 2) 0 >>> 4) &&& 0x0F) :=
  ⟨by decide, by decide, claim_C3 [0x21] 2 1 (by decide) (by decide)⟩

/-- Claim C8: when the first four little-endian bytes do not decode to
0x10, `read_tim` fails with the bad-magic error and yields no image. -/
theorem claim_C8 (b0 b1 b2 b3 : Nat) (rest : List Nat) (p : Int)
    (h : b0 + 256 * b1 + 65536 * b2 + 16777216 * b3 ≠ 0x10) :
    read_tim (b0 :: b1 :: b2 :: b3 :: rest) p = .error .badMagic := by
  have hp : parseToClut (b0 :: b1 :: b2 :: b3 :: rest) = .error .badMagic := by
    unfold parseToClut
    simp only [u32le?]
    rw [if_pos h]
  unfold read_tim
  rw [hp]

/-- Claim C8 witness: the all-zero four-byte header is rejected. -/
theorem claim_C8_witness :
    (0 : Nat) + 256 * 0 + 65536 * 0 + 16777216 * 0 ≠ 0x10 ∧
    read_tim [0, 0, 0, 0] 0 = .error .badMagic :=
  ⟨by decide, claim_C8 0 0 0 0 [] 0 (by decide)⟩

set_option maxRecDepth 40000 in
/-- Claim C10: every entry of the synthesized no-CLUT palette has all three
5-bit channel fields equal to `i mod 32`, the 256-entry 8bpp table repeats
with period 32 (entries `i` and `i + 32` coincide for `i < 224`), and the
16-entry 4bpp table is its prefix. -/
theorem claim_C10 :
    (∀ i < 256, fallbackColor i &&& 0x1F = i % 32 ∧
      (fallbackColor i >>> 5) &&& 0x1F = i % 32 ∧
      (fallbackColor i >>> 10) &&& 0x1F = i % 32) ∧
    (∀ i < 224,
      (fallbackPalette 256).getD i 0 = (fallbackPalette 256).getD (i + 32) 0) ∧
    (∀ i < 16, (fallbackPalette 16).getD i 0 = (fallbackPalette 256).getD i 0) := by
  decide

/-- Claim C10 witness: entries 5 and 37 of the synthesized 8bpp palette
coincide. -/
theorem claim_C10_witness :
    (5 : Nat) < 224 ∧
    (fallbackPalette 256).getD 5 0 = (fallbackPalette 256).getD (5 + 32) 0 :=
  ⟨by decide, claim_C10.2.1 5 (by decide)⟩


/-- Claim C4 counterexample: on `clutFileC4` the parser returns two CLUT rows
`[[1, 2], [3, 4]]` although the header's height field (bytes 18-19) is 1 —
the row count comes from the payload length, not from the height field. -/
theorem claim_C4_counterexample :
    (parseToClut clutFileC4).toOption.bind ParsedFile.rows? =
      some [[1, 2], [3, 4]] ∧
    u16le (clutFileC4.getD 18 0) (clutFileC4.getD 19 0) = 1 ∧
    ([[1, 2], [3, 4]] : List (List Nat)).length ≠ 1 :=
  ⟨rfl, rfl, by decide⟩

/-- Claim C4 amended: when the flat color count is a positive multiple of
`width`, the parser reshapes it into `flatLength / width` rows of `width`
columns, preserving all values in order — this equals the header's
`clutHeight` exactly when the payload length is `width * clutHeight`;
otherwise the parser degrades to a single row holding every value. -/
theorem claim_C4_amended (colors : List Nat) (w : Nat) :
    (0 < w → colors.length % w = 0 →
      (clutReshape colors w).length = colors.length / w ∧
      (clutReshape colors w).flatten = colors ∧
      (∀ r ∈ clutReshape colors w, r.length = w) ∧
      (∀ hdrH : Nat, colors.length = w * hdrH →
        (clutReshape colors w).length = hdrH)) ∧
    ((w = 0 ∨ colors.length % w ≠ 0) → clutReshape colors w = [colors]) := by
  constructor
  · intro hw hmod
    have hdvd : w ∣ colors.length := Nat.dvd_of_mod_eq_zero hmod
    obtain ⟨hL, hF, hR⟩ := clutReshape_divisible hw hdvd
    refine ⟨hL, hF, hR, ?_⟩
    intro hdrH hEq
    rw [hL, hEq, Nat.mul_div_cancel_left _ hw]
  · exact clutReshape_fallback

/-- Claim C4 witness: four colors at width 2 reshape into 2 ordered rows. -/
theorem claim_C4_witness :
    0 < 2 ∧ ([1, 2, 3, 4] : List Nat).length % 2 = 0 ∧
    (clutReshape [1, 2, 3, 4] 2).length = ([1, 2, 3, 4] : List Nat).length / 2 ∧
    (clutReshape [1, 2, 3, 4] 2).flatten = [1, 2, 3, 4] :=
  ⟨by decide, by decide,
   ((claim_C4_amended [1, 2, 3, 4] 2).1 (by decide) (by decide)).1,
   ((claim_C4_amended [1, 2, 3, 4] 2).1 (by decide) (by decide)).2.1⟩

/-- Claim C5: when the parsed CLUT has `h` rows and the requested palette
index is at least `h`, decoding behaves exactly as decoding with index 0. -/
theorem claim_C5 (data : List Nat) (p : Int) (pf : ParsedFile)
    (rows : List (List Nat)) (h1 : parseToClut data = .ok pf)
    (h2 : pf.rows? = some rows) (h3 : (rows.length : Int) ≤ p) :
    read_tim data p = read_tim data 0 := by
  simp only [read_tim, h1, h2, selectPalette_ge h3]


/-- Claim C5 witness: on `timFileC5` (CLUT of 2 rows), palette index 5
decodes identically to palette index 0. -/
theorem claim_C5_witness :
    parseToClut timFileC5 =
      .ok ⟨4, some [[32767], [0]], [14, 0, 0, 0, 0, 0, 0, 0, 1, 0, 1, 0, 0, 0]⟩ ∧
    (([[32767], [0]] : List (List Nat)).length : Int) ≤ 5 ∧
    read_tim timFileC5 5 = read_tim timFileC5 0 :=
  ⟨rfl, by decide,
   claim_C5 timFileC5 5
     ⟨4, some [[32767], [0]], [14, 0, 0, 0, 0, 0, 0, 0, 1, 0, 1, 0, 0, 0]⟩
     [[32767], [0]] rfl rfl (by decide)⟩

/-- Claim C9: a negative palette index `p` with `-h ≤ p < 0` is neither an
error nor clamped to row 0: numpy indexing selects row `h + p`, and decoding
equals decoding with the nonnegative index `h + p`. -/
theorem claim_C9 (data : List Nat) (p : Int) (pf : ParsedFile)
    (rows : List (List Nat)) (h1 : parseToClut data = .ok pf)
    (h2 : pf.rows? = some rows) (h3 : -(rows.length : Int) ≤ p) (h4 : p < 0) :
    selectPalette rows p = .ok (rows.getD ((rows.length : Int) + p).toNat []) ∧
    read_tim data p = read_tim data ((rows.length : Int) + p) := by
  refine ⟨selectPalette_negIdx h3 h4, ?_⟩
  simp only [read_tim, h1, h2, selectPalette_negIdx h3 h4,
    selectPalette_nonneg (show (0 : Int) ≤ (rows.length : Int) + p by omega)
      (show (rows.length : Int) + p < (rows.length : Int) by omega)]

/-- Claim C9 witness: on `timFileC5` the index -1 selects the last CLUT row
(row 1, color 0) and decodes like index 1. -/
theorem claim_C9_witness :
    parseToClut timFileC5 =
      .ok ⟨4, some [[32767], [0]], [14, 0, 0, 0, 0, 0, 0, 0, 1, 0, 1, 0, 0, 0]⟩ ∧
    -(([[32767], [0]] : List (List Nat)).length : Int) ≤ -1 ∧ (-1 : Int) < 0 ∧
    (selectPalette [[32767], [0]] (-1) =
      .ok (([[32767], [0]] : List (List Nat)).getD
        ((([[32767], [0]] : List (List Nat)).length : Int) + -1).toNat []) ∧
     read_tim timFileC5 (-1) =
       read_tim timFileC5 ((([[32767], [0]] : List (List Nat)).length : Int) + -1)) :=
  ⟨rfl, by decide, by decide,
   claim_C9 timFileC5 (-1)
     ⟨4, some [[32767], [0]], [14, 0, 0, 0, 0, 0, 0, 0, 1, 0, 1, 0, 0, 0]⟩
     [[32767], [0]] rfl rfl (by decide) (by decide)⟩


/-- Claim C6 (observed code behavior at the failing input): instead of
failing, the encoder silently clips index 16 to 15 and emits a complete
65-byte TIM whose packed pixel byte (offset 64) is 0x1F = (1 << 4) | 15. -/
theorem claim_C6_bug :
    (image_to_tim clipImgC6 4).toOption.map
      (fun bs => (bs.length, bs.getD 64 0)) = some (65, 31) := rfl

/-- Claim C7: 4bpp packing emits, for every pair of consecutive in-range
pixel indices, one byte equal to `(secondIndex << 4) | firstIndex`; with an
odd pixel count the final byte's high nibble is 0; and encoding the 4x1
image with indices [1, 2, 3, 4] against any palette yields widthWords 1,
height 1 and packed pixel bytes [0x21, 0x43] (bytes 60-65 of the output). -/
theorem claim_C7 :
    (∀ idxs : List Nat, (∀ x ∈ idxs, x ≤ 15) → ∀ j : Nat, 2 * j < idxs.length →
      (pack4 (idxs.map clip15))[j]? =
        some ((idxs.getD (2 * j + 1) 0 <<< 4) ||| idxs.getD (2 * j) 0)) ∧
    (∀ idxs : List Nat, (∀ x ∈ idxs, x ≤ 15) → idxs.length % 2 = 1 →
      ∃ bLast, (pack4 (idxs.map clip15))[idxs.length / 2]? = some bLast ∧
        bLast >>> 4 = 0) ∧
    (∀ pal : List Nat, ∃ bs,
      image_to_tim ⟨4, 1, pal, [1, 2, 3, 4]⟩ 4 = .ok bs ∧
      bs.drop 60 = [1, 0, 1, 0, 0x21, 0x43]) := by
  refine ⟨?_, ?_, ?_⟩
  · intro idxs h j hj
    rw [map_clip15_id h]
    exact pack4_getElem? idxs j (by omega)
  · intro idxs h hodd
    rw [map_clip15_id h]
    refine ⟨_, pack4_getElem? idxs (idxs.length / 2) (by omega), ?_⟩
    have hOut : idxs.getD (2 * (idxs.length / 2) + 1) 0 = 0 := by
      rw [List.getD_eq_getElem?_getD, List.getElem?_eq_none (by omega)]
      rfl
    have hIn : idxs.getD (2 * (idxs.length / 2)) 0 < 16 :=
      getD_lt_of_forall (fun x hx => by have := h x hx; omega) (by omega) _
    rw [hOut, Nat.zero_shiftLeft, Nat.zero_or, shiftR4]
    omega
  · intro pal
    refine ⟨_, image_to_tim_4bpp ⟨4, 1, pal, [1, 2, 3, 4]⟩
      (show ((4 : Nat) + 3) / 4 < 65536 by decide)
      (show (1 : Nat) < 65536 by decide)
      (show 12 + (pack4 (List.map clip15 [1, 2, 3, 4])).length < 4294967296 by decide),
      ?_⟩
    have hflat : ((((List.range 16).map (clutColor pal)).map
        u16leBytes).flatten).length = 32 := by
      rw [flatten_u16_length, List.length_map, List.length_range]
    show ([16, 0, 0, 0, 8, 0, 0, 0, 44, 0, 0, 0, 0, 0, 0, 0, 16, 0, 1, 0] ++
      ((((List.range 16).map (clutColor pal)).map u16leBytes).flatten ++
       (u32leBytes (12 + (pack4 (List.map clip15 [1, 2, 3, 4])).length) ++
        ([0, 0, 0, 0] ++ (u16leBytes ((4 + 3) / 4) ++
         (u16leBytes 1 ++ pack4 (List.map clip15 [1, 2, 3, 4]))))))).drop 60
      = [1, 0, 1, 0, 0x21, 0x43]
    rw [drop_append_ge (by decide), drop_append_ge (by rw [hflat]; decide), hflat]
    rfl

/-- Claim C7 witness: byte 0 of the packed stream for indices [1, 2, 3, 4]
is (2 << 4) | 1. -/
theorem claim_C7_witness :
    (∀ x ∈ ([1, 2, 3, 4] : List Nat), x ≤ 15) ∧
    2 * 0 < ([1, 2, 3, 4] : List Nat).length ∧
    (pack4 (([1, 2, 3, 4] : List Nat).map clip15))[0]? =
      some ((([1, 2, 3, 4] : List Nat).getD (2 * 0 + 1) 0 <<< 4) |||
        ([1, 2, 3, 4] : List Nat).getD (2 * 0) 0) :=
  ⟨by decide, by decide, claim_C7.1 [1, 2, 3, 4] (by decide) 0 (by decide)⟩

/-- Claim C1 counterexample: the claim promises that decoding an encoded
image recovers the original pixel width for every width and height, but the
1x1 4bpp image encodes with widthWords = ceil(1/4) = 1 (derived pixel width
4) and a single payload byte, so decoding the produced buffer fails with an
IndexError instead of yielding width 1. -/
theorem claim_C1_counterexample :
    oneByOneImg.width = 1 ∧
    (image_to_tim oneByOneImg 4).toOption.map (fun bs => read_tim bs 0) =
      some (.error .indexError) :=
  ⟨rfl, rfl⟩

/-- Claim C1 amended: the encoder stores widthWords = ceil(width/4) for 4bpp
and ceil(width/2) for 8bpp (visible as the two bytes right after offset 60,
resp. 540, of the output); the round trip through the decoder recovers the
original width and height whenever the width is a multiple of 4 (4bpp),
resp. 2 (8bpp).  For other widths the decoder derives 4*ceil(width/4), resp.
2*ceil(width/2), which differs from the original width, so the claim's
universal round trip does not hold there: the 1x1 counterexample even fails
to decode. -/
theorem claim_C1_amended (img : PImage) (hH : img.height < 65536) :
    (img.pixels.length = img.width * img.height →
     (∀ x ∈ img.pixels, x < 16) →
     img.width % 4 = 0 → img.width / 4 < 65536 →
     12 + (img.pixels.length + 1) / 2 < 4294967296 →
     ∃ bs out, image_to_tim img 4 = .ok bs ∧
       bs.drop 60 = u16leBytes ((img.width + 3) / 4) ++
         (u16leBytes img.height ++ pack4 img.pixels) ∧
       read_tim bs 0 = .ok out ∧ out.width = img.width ∧
       out.height = img.height) ∧
    (img.pixels.length = img.width * img.height →
     (∀ x ∈ img.pixels, x < 256) →
     img.width % 2 = 0 → img.width / 2 < 65536 →
     12 + img.pixels.length < 4294967296 →
     ∃ bs out, image_to_tim img 8 = .ok bs ∧
       bs.drop 540 = u16leBytes ((img.width + 1) / 2) ++
         (u16leBytes img.height ++ img.pixels) ∧
       read_tim bs 0 = .ok out ∧ out.width = img.width ∧
       out.height = img.height) := by
  constructor
  · intro hlen hpix hdiv hW hSz
    have hclip : img.pixels.map clip15 = img.pixels :=
      map_clip15_id fun x hx => by have := hpix x hx; omega
    have hpk : (pack4 (img.pixels.map clip15)).length = (img.pixels.length + 1) / 2 := by
      rw [hclip, pack4_length]
    have hbs := image_to_tim_4bpp img (by omega) hH (by omega)
    rw [hclip] at hbs
    have hflat : ((((List.range 16).map (clutColor img.palette)).map
        u16leBytes).flatten).length = 32 := by
      rw [flatten_u16_length, List.length_map, List.length_range]
    have hw4 : (img.width + 3) / 4 * 4 = img.width := by omega
    have hdec := read_tim_enc4 img.palette img.pixels
      (12 + (pack4 (img.pixels.map clip15)).length) ((img.width + 3) / 4) img.height
      (by omega) hH (by rw [hw4]; exact hlen) hpix
    rw [hclip] at hdec
    refine ⟨_, _, hbs, ?_, hdec, ?_, rfl⟩
    · rw [drop_append_ge (by decide), drop_append_ge (by rw [hflat]; decide), hflat]
      rfl
    · show (img.width + 3) / 4 * 4 = img.width
      omega
  · intro hlen hpix hdiv hW hSz
    have hbs := image_to_tim_8bpp img (by omega) hH (by omega)
    have hflat : ((((List.range 256).map (clutColor img.palette)).map
        u16leBytes).flatten).length = 512 := by
      rw [flatten_u16_length, List.length_map, List.length_range]
    have hw2 : (img.width + 1) / 2 * 2 = img.width := by omega
    have hdec := read_tim_enc8 img.palette img.pixels
      (12 + img.pixels.length) ((img.width + 1) / 2) img.height
      (by omega) hH (by rw [hw2]; exact hlen) hpix
    refine ⟨_, _, hbs, ?_, hdec, ?_, rfl⟩
    · rw [drop_append_ge (by decide), drop_append_ge (by rw [hflat]; decide), hflat]
      rfl
    · show (img.width + 1) / 2 * 2 = img.width
      omega

/-- Claim C1 witness: the aligned 4x1 image round trips to width 4 and
height 1. -/
theorem claim_C1_witness :
    alignedImgC1.height < 65536 ∧
    alignedImgC1.pixels.length = alignedImgC1.width * alignedImgC1.height ∧
    (∀ x ∈ alignedImgC1.pixels, x < 16) ∧
    alignedImgC1.width % 4 = 0 ∧
    (∃ bs out, image_to_tim alignedImgC1 4 = .ok bs ∧
      bs.drop 60 = u16leBytes ((alignedImgC1.width + 3) / 4) ++
        (u16leBytes alignedImgC1.height ++ pack4 alignedImgC1.pixels) ∧
      read_tim bs 0 = .ok out ∧ out.width = alignedImgC1.width ∧
      out.height = alignedImgC1.height) :=
  ⟨by decide, by decide, by decide, by decide,
   (claim_C1_amended alignedImgC1 (by decide)).1 (by decide) (by decide)
     (by decide) (by decide) (by decide)⟩


end Timview
